import Mathlib

/-!
Shallow embedding of the tamper-detection demo application: an Express
server holding a single authoritative record with an append-only backup
history, and a React client that hashes, verifies and restores.

The SHA-256 digest function of the source (crypto.createHash / crypto.subtle)
is modelled as an abstract function parameter named generateHash, matching
the source's function name: every property of the program under study
compares digests only by exact equality, so the development is parameterized
over an arbitrary digest function of type String -> String.
-/

namespace App

/-- The current record held by the server: data plus its asserted digest. -/
structure Rec where
  data : String
  integrity : String
deriving DecidableEq

/-- One entry of the version history pushed by the write handler. -/
structure HistoryEntry where
  data : String
  integrity : String
  timestamp : String
deriving DecidableEq

/-- The server's in-memory database: the current record and the version
history, with list order = push order (newest entry last). -/
structure Database where
  current : Rec
  history : List HistoryEntry
deriving DecidableEq

/-- The server state right after startup: initial data with its digest
bound by the initialization line that hashes the initial data. -/
def initialDatabase (generateHash : String → String) : Database :=
  { current := { data := "Hello World", integrity := generateHash "Hello World" }
    history := [] }

/-- The GET / handler: respond with the current record. -/
def readCurrent (db : Database) : Rec :=
  db.current

/-- Outcome of the POST / write handler: 200 success, or one of the two
400 rejections. -/
inductive WriteOutcome where
  | ok
  | integrityCorrupted
  | hashMismatch
deriving DecidableEq

/-- The POST / handler. It first recomputes the digest of the stored
current data and rejects when it disagrees with the stored integrity;
then it recomputes the digest of the submitted data and rejects when it
disagrees with the submitted hash; otherwise it pushes the old current
record (with a timestamp) onto the history and replaces the current
record. The second component is the database after the request. -/
def postWrite (generateHash : String → String) (now data hash : String)
    (db : Database) : WriteOutcome × Database :=
  if generateHash db.current.data ≠ db.current.integrity then
    (.integrityCorrupted, db)
  else if generateHash data ≠ hash then
    (.hashMismatch, db)
  else
    (.ok,
      { current := { data := data, integrity := generateHash data }
        history := db.history ++
          [{ data := db.current.data, integrity := db.current.integrity,
             timestamp := now }] })

/-- Outcome of the GET /backup handler: 404 when the history is empty,
200 with the restored current record, or the 500 branch guarding the
impossible case that pop returned nothing on a non-empty history. -/
inductive BackupOutcome where
  | noBackup
  | restored (current : Rec)
  | restoreFailed
deriving DecidableEq

/-- The GET /backup handler. On empty history it answers 404 and changes
nothing. Otherwise it pops the last history entry; when the pop yields an
entry, the current record is replaced by that entry's data and integrity
and the new current record is returned; the remaining branch answers 500. -/
def getBackup (db : Database) : BackupOutcome × Database :=
  if db.history.length = 0 then
    (.noBackup, db)
  else
    match db.history.getLast? with
    | some prev =>
        (.restored { data := prev.data, integrity := prev.integrity },
          { current := { data := prev.data, integrity := prev.integrity }
            history := db.history.dropLast })
    | none => (.restoreFailed, { db with history := db.history.dropLast })

/-- The POST /tamper handler: overwrite the current data in place, leaving
the integrity field and the history untouched. -/
def tamperOp (db : Database) : Database :=
  { db with current := { db.current with data := "Tampered Data!" } }

/-- Iterated restore: apply the GET /backup state transition n times. -/
def restoreN : Nat → Database → Database
  | 0, db => db
  | n + 1, db => restoreN n (getBackup db).2

/-- One client-visible server operation (tamper injection excluded). -/
inductive Op where
  | read
  | write (data hash now : String)
  | restore

/-- The state transition of one operation on the database. -/
def applyOp (generateHash : String → String) (db : Database) : Op → Database
  | .read => db
  | .write data hash now => (postWrite generateHash now data hash db).2
  | .restore => (getBackup db).2

/-- The database reached by running a sequence of operations. -/
def runOps (generateHash : String → String) (ops : List Op) (db : Database) :
    Database :=
  ops.foldl (applyOp generateHash) db

/-- The hash-binding invariant: the current record's stored digest is the
digest of its data, and likewise for every archived history entry. -/
def Intact (generateHash : String → String) (db : Database) : Prop :=
  db.current.integrity = generateHash db.current.data ∧
  ∀ e ∈ db.history, e.integrity = generateHash e.data

end App

namespace App

/-- A JSON value, as far as the response bodies of this server need:
strings and objects with string keys. -/
inductive Json where
  | str : String → Json
  | obj : List (String × Json) → Json

/-- First field of the given name in a JSON object body, if any: the
model of JavaScript property access slash destructuring, where a missing
field yields undefined (none). -/
def lookupField : List (String × Json) → String → Option Json
  | [], _ => none
  | (k, v) :: rest, key => if k = key then some v else lookupField rest key

/-- Property access on a JSON value; non-objects have no properties. -/
def getField (j : Json) (key : String) : Option Json :=
  match j with
  | .obj fields => lookupField fields key
  | .str _ => none

/-- A JSON value read as a string, when it is one. -/
def asString : Json → Option String
  | .str s => some s
  | .obj _ => none

/-- Destructuring the field named data from a response body, as the
client does with const braces data braces = await response.json(). -/
def getDataField (j : Json) : Option String :=
  (getField j "data").bind asString

/-- The body of a GET / response: the current record as JSON. -/
def rootBody (db : Database) : Json :=
  .obj [("data", .str db.current.data), ("integrity", .str db.current.integrity)]

/-- The body of a successful GET /backup response: a message and the new
current record, under the key current (there is no top-level data field). -/
def backupBody (current : Rec) : Json :=
  .obj [("message", .str "Backup restored successfully."),
        ("current", .obj [("data", .str current.data),
                          ("integrity", .str current.integrity)])]

/-- The client's getData: fetch GET /, destructure data, store it as the
local copy. The local copy is an Option String: none models the
JavaScript undefined value. -/
def getData (db : Database) : Option String :=
  getDataField (rootBody db)

/-- Trace of one run of the client's restoreBackup: the value setData
receives from the backup response, the local copy after the getData
refresh, and the server state afterwards. -/
structure RestoreFlowResult where
  localAfterSetData : Option String
  localFinal : Option String
  db : Database
deriving DecidableEq

/-- The client's restoreBackup. When GET /backup is not ok (404 or 500)
it alerts and returns, leaving the local copy alone. On success it
destructures the field data from the backup response body (which holds
only message and current), stores that value, then refreshes via getData. -/
def restoreBackup (localCopy : Option String) (db : Database) : RestoreFlowResult :=
  match getBackup db with
  | (.restored cur, db1) =>
      { localAfterSetData := getDataField (backupBody cur)
        localFinal := getData db1
        db := db1 }
  | (.noBackup, db1) =>
      { localAfterSetData := localCopy, localFinal := localCopy, db := db1 }
  | (.restoreFailed, db1) =>
      { localAfterSetData := localCopy, localFinal := localCopy, db := db1 }

/-- Classification produced by the client's verifyData. -/
inductive Verdict where
  | intact
  | tampered
deriving DecidableEq

/-- Result of one run of the client's verifyData: the verdict, whether
restoreBackup was invoked, the local copy afterwards, and the server
state afterwards. -/
structure VerifyResult where
  verdict : Verdict
  restoreInvoked : Bool
  finalLocal : Option String
  db : Database

/-- The client's verifyData: fetch the current record, compare the
server's asserted hash with the digest of the local copy and with the
digest of the server's data; on full agreement report intact, otherwise
report tampering and invoke restoreBackup. -/
def verifyData (generateHash : String → String) (localData : String)
    (db : Database) : VerifyResult :=
  if db.current.integrity = generateHash localData ∧
     db.current.integrity = generateHash db.current.data then
    { verdict := .intact, restoreInvoked := false,
      finalLocal := some localData, db := db }
  else
    { verdict := .tampered, restoreInvoked := true,
      finalLocal := (restoreBackup (some localData) db).localFinal,
      db := (restoreBackup (some localData) db).db }

end App

namespace App

/-- Claim C3: when the current record is intact and the submitted hash
differs from the digest of the submitted data, the write is rejected
with the hash-mismatch error and the database is returned unchanged. -/
theorem postWrite_hashMismatch_rejects (generateHash : String → String)
    (now data hash : String) (db : Database)
    (hintact : db.current.integrity = generateHash db.current.data)
    (hmm : hash ≠ generateHash data) :
    postWrite generateHash now data hash db = (.hashMismatch, db) := by
  have h1 : ¬ generateHash db.current.data ≠ db.current.integrity := by
    simp [hintact]
  have h2 : generateHash data ≠ hash := fun e => hmm e.symm
  simp [postWrite, h1, h2]

/-- Claim C3 witness: concrete rejected write with a wrong claimed hash. -/
theorem postWrite_hashMismatch_rejects_witness :
    postWrite (fun s => s) "t0" "Updated" "WRONG"
        { current := { data := "Hello World", integrity := "Hello World" },
          history := [] } =
      (.hashMismatch,
        { current := { data := "Hello World", integrity := "Hello World" },
          history := [] }) :=
  postWrite_hashMismatch_rejects (fun s => s) "t0" "Updated" "WRONG"
    { current := { data := "Hello World", integrity := "Hello World" },
      history := [] }
    (by decide) (by decide)

/-- Claim C4: when the stored current record is corrupted (its digest no
longer matches its integrity field), every write is rejected with the
integrity-corrupted error, independently of the submitted payload, and
the database is returned unchanged. -/
theorem postWrite_corrupted_rejects (generateHash : String → String)
    (now data hash : String) (db : Database)
    (hc : generateHash db.current.data ≠ db.current.integrity) :
    postWrite generateHash now data hash db = (.integrityCorrupted, db) := by
  simp [postWrite, hc]

/-- Claim C4 witness: concrete corrupted state rejecting a write. -/
theorem postWrite_corrupted_rejects_witness :
    postWrite (fun s => s) "t0" "Updated" "Updated"
        { current := { data := "Tampered Data!", integrity := "Hello World" },
          history := [] } =
      (.integrityCorrupted,
        { current := { data := "Tampered Data!", integrity := "Hello World" },
          history := [] }) :=
  postWrite_corrupted_rejects (fun s => s) "t0" "Updated" "Updated"
    { current := { data := "Tampered Data!", integrity := "Hello World" },
      history := [] }
    (by decide)

/-- Claim C6: on an empty history, the restore handler answers that no
backup is available and returns the database unchanged. -/
theorem getBackup_empty_noBackup (current : Rec) :
    getBackup { current := current, history := [] } =
      (.noBackup, { current := current, history := [] }) :=
  rfl

/-- Claim C10: the 500 branch of the restore handler is unreachable: on
every database the outcome is either the 404 no-backup answer or a 200
restored record, never the restore-failed answer. -/
theorem getBackup_never_restoreFailed (db : Database) :
    (getBackup db).1 ≠ .restoreFailed := by
  by_cases h0 : db.history.length = 0
  · simp [getBackup, h0]
  · cases hgl : db.history.getLast? with
    | none =>
        have hnil : db.history = [] := List.getLast?_eq_none_iff.mp hgl
        simp [hnil] at h0
    | some e => simp [getBackup, h0, hgl]

/-- Claim C1: the client's verification reports intact exactly when the
server's asserted hash equals the digest of the client's local data and
also equals the digest of the server's stored data; every other
combination yields the tampered verdict, and restoreBackup is invoked
exactly on the tampered verdict. -/
theorem verifyData_spec (generateHash : String → String) (localData : String)
    (db : Database) :
    ((verifyData generateHash localData db).verdict = .intact ↔
      (db.current.integrity = generateHash localData ∧
       db.current.integrity = generateHash db.current.data)) ∧
    ((verifyData generateHash localData db).verdict = .tampered ↔
      ¬ (db.current.integrity = generateHash localData ∧
         db.current.integrity = generateHash db.current.data)) ∧
    ((verifyData generateHash localData db).restoreInvoked = true ↔
      (verifyData generateHash localData db).verdict = .tampered) := by
  by_cases h : db.current.integrity = generateHash localData ∧
      db.current.integrity = generateHash db.current.data
  · obtain ⟨h1, h2⟩ := h
    simp [verifyData, h1, h2, h1.symm.trans h2]
  · simp [verifyData, h]

/-- Claim C2: a successful write of data d with its correct digest makes
the read handler return d with integrity equal to the digest of d, grows
the history by exactly one entry, and the appended last entry carries the
pre-write current record's data and integrity with the write timestamp. -/
theorem postWrite_success_props (generateHash : String → String)
    (now d : String) (db : Database)
    (hok : (postWrite generateHash now d (generateHash d) db).1 = .ok) :
    (readCurrent (postWrite generateHash now d (generateHash d) db).2).data = d ∧
    (readCurrent (postWrite generateHash now d (generateHash d) db).2).integrity =
      generateHash d ∧
    (postWrite generateHash now d (generateHash d) db).2.history.length =
      db.history.length + 1 ∧
    (postWrite generateHash now d (generateHash d) db).2.history.getLast? =
      some { data := db.current.data, integrity := db.current.integrity,
             timestamp := now } := by
  by_cases h1 : generateHash db.current.data ≠ db.current.integrity
  · simp [postWrite, h1] at hok
  · simp [postWrite, h1, readCurrent, List.getLast?_concat]

/-- Claim C2 witness: a concrete successful write on the initial state. -/
theorem postWrite_success_props_witness :
    (readCurrent (postWrite (fun s => s) "t0" "Updated" ((fun s => s) "Updated")
        { current := { data := "Hello World", integrity := "Hello World" },
          history := [] }).2).data = "Updated" ∧
    (readCurrent (postWrite (fun s => s) "t0" "Updated" ((fun s => s) "Updated")
        { current := { data := "Hello World", integrity := "Hello World" },
          history := [] }).2).integrity = (fun s => s) "Updated" ∧
    (postWrite (fun s => s) "t0" "Updated" ((fun s => s) "Updated")
        { current := { data := "Hello World", integrity := "Hello World" },
          history := [] }).2.history.length =
      ({ current := { data := "Hello World", integrity := "Hello World" },
         history := [] } : Database).history.length + 1 ∧
    (postWrite (fun s => s) "t0" "Updated" ((fun s => s) "Updated")
        { current := { data := "Hello World", integrity := "Hello World" },
          history := [] }).2.history.getLast? =
      some { data := "Hello World", integrity := "Hello World",
             timestamp := "t0" } :=
  postWrite_success_props (fun s => s) "t0" "Updated"
    { current := { data := "Hello World", integrity := "Hello World" },
      history := [] }
    (by decide)

/-- Claim C8 counterexample: the claim asserts a digest mismatch after
tampering on every store state, but on the (reachable) state whose
current integrity already equals the digest of the string written by the
tamper handler, the record after tampering is consistent: with the
identity digest model, the state with integrity equal to the tampered
string refutes the conjunction of the claimed frame and mismatch
properties. -/
theorem tamper_claim_counterexample :
    ¬ ((tamperOp ⟨⟨"Hello World", "Tampered Data!"⟩, []⟩).current.integrity =
          (⟨⟨"Hello World", "Tampered Data!"⟩, []⟩ : Database).current.integrity ∧
       (tamperOp ⟨⟨"Hello World", "Tampered Data!"⟩, []⟩).history =
          (⟨⟨"Hello World", "Tampered Data!"⟩, []⟩ : Database).history ∧
       (fun s => s : String → String)
           (tamperOp ⟨⟨"Hello World", "Tampered Data!"⟩, []⟩).current.data ≠
          (tamperOp ⟨⟨"Hello World", "Tampered Data!"⟩, []⟩).current.integrity) := by
  decide

/-- Claim C8 (amended): the tamper handler overwrites the current data
with the fixed tampered string, leaves the integrity field and the
history unchanged, and, provided the pre-state integrity differs from
the digest of the tampered string, the resulting record's stored digest
no longer matches its payload. -/
theorem tamper_frame_and_mismatch (generateHash : String → String)
    (db : Database)
    (h : db.current.integrity ≠ generateHash "Tampered Data!") :
    (tamperOp db).current.data = "Tampered Data!" ∧
    (tamperOp db).current.integrity = db.current.integrity ∧
    (tamperOp db).history = db.history ∧
    generateHash (tamperOp db).current.data ≠ (tamperOp db).current.integrity := by
  exact ⟨rfl, rfl, rfl, fun e => h e.symm⟩

/-- Claim C8 (amended) witness: concrete tamper on the initial state. -/
theorem tamper_frame_and_mismatch_witness :
    (tamperOp ⟨⟨"Hello World", "Hello World"⟩, []⟩).current.data =
      "Tampered Data!" ∧
    (tamperOp ⟨⟨"Hello World", "Hello World"⟩, []⟩).current.integrity =
      (⟨⟨"Hello World", "Hello World"⟩, []⟩ : Database).current.integrity ∧
    (tamperOp ⟨⟨"Hello World", "Hello World"⟩, []⟩).history =
      (⟨⟨"Hello World", "Hello World"⟩, []⟩ : Database).history ∧
    (fun s => s : String → String)
        (tamperOp ⟨⟨"Hello World", "Hello World"⟩, []⟩).current.data ≠
      (tamperOp ⟨⟨"Hello World", "Hello World"⟩, []⟩).current.integrity :=
  tamper_frame_and_mismatch (fun s => s)
    ⟨⟨"Hello World", "Hello World"⟩, []⟩ (by decide)

/-- Claim C9: evaluating the client restore flow at a state with one
backup shows the slip: the server restores the backup (current becomes
the archived record), but the value the client stores from the backup
response is the undefined result of destructuring the absent field data
from a body holding only message and current; only the subsequent
getData refresh makes the local copy equal the authoritative current. -/
theorem restoreBackup_sets_undefined_then_resyncs :
    (restoreBackup (some "Updated")
        { current := { data := "Updated", integrity := "h1" },
          history := [{ data := "Hello World", integrity := "h0",
                        timestamp := "t0" }] }).localAfterSetData = none ∧
    (restoreBackup (some "Updated")
        { current := { data := "Updated", integrity := "h1" },
          history := [{ data := "Hello World", integrity := "h0",
                        timestamp := "t0" }] }).db.current =
      { data := "Hello World", integrity := "h0" } ∧
    (restoreBackup (some "Updated")
        { current := { data := "Updated", integrity := "h1" },
          history := [{ data := "Hello World", integrity := "h0",
                        timestamp := "t0" }] }).localFinal =
      some "Hello World" := by
  decide

/-- Helper: the write handler on a corrupted current record. -/
theorem postWrite_corrupt_eq (generateHash : String → String)
    (now data hash : String) (db : Database)
    (hc : generateHash db.current.data ≠ db.current.integrity) :
    postWrite generateHash now data hash db = (.integrityCorrupted, db) := by
  simp [postWrite, hc]

/-- Helper: the write handler on an intact current record with a
mismatching submitted hash. -/
theorem postWrite_mismatch_eq (generateHash : String → String)
    (now data hash : String) (db : Database)
    (hc : generateHash db.current.data = db.current.integrity)
    (hm : generateHash data ≠ hash) :
    postWrite generateHash now data hash db = (.hashMismatch, db) := by
  simp [postWrite, hc, hm]

/-- Helper: the write handler on an intact current record with a correct
submitted hash. -/
theorem postWrite_ok_eq (generateHash : String → String)
    (now data hash : String) (db : Database)
    (hc : generateHash db.current.data = db.current.integrity)
    (hm : generateHash data = hash) :
    postWrite generateHash now data hash db =
      (.ok,
        ⟨⟨data, generateHash data⟩,
         db.history ++ [⟨db.current.data, db.current.integrity, now⟩]⟩) := by
  simp [postWrite, hc, hm]

/-- Helper: the restore handler on a history whose last entry is known. -/
theorem getBackup_pop (db : Database) (e : HistoryEntry)
    (h : db.history.getLast? = some e) :
    getBackup db =
      (.restored ⟨e.data, e.integrity⟩,
       ⟨⟨e.data, e.integrity⟩, db.history.dropLast⟩) := by
  have hne : db.history ≠ [] := by
    intro h0
    rw [h0] at h
    simp at h
  have hlen : ¬ db.history.length = 0 := by
    simp [List.length_eq_zero, hne]
  simp [getBackup, hlen, h]

/-- Helper: the last history entry is the value popped by one restore. -/
theorem history_decomp (db : Database) (e : HistoryEntry)
    (h : db.history.getLast? = some e) :
    db.history.dropLast ++ [e] = db.history := by
  have hne : db.history ≠ [] := by
    intro h0
    rw [h0] at h
    simp at h
  have h2 := List.getLast?_eq_getLast_of_ne_nil hne
  rw [h] at h2
  have h3 : e = db.history.getLast hne := Option.some_inj.mp h2
  rw [h3]
  exact List.dropLast_concat_getLast hne

/-- Helper: iterated restore walks the reversed history. -/
theorem restoreN_back : ∀ (n : Nat) (db : Database) (f : HistoryEntry),
    n + 1 ≤ db.history.length → db.history.reverse[n]? = some f →
    (restoreN (n + 1) db).current = ⟨f.data, f.integrity⟩ ∧
    (restoreN (n + 1) db).history.length + (n + 1) = db.history.length := by
  intro n
  induction n with
  | zero =>
      intro db f hlen hget
      have hne : db.history ≠ [] := by
        intro h0
        rw [h0] at hlen
        simp at hlen
      have hgl : db.history.getLast? = some f := by
        rw [List.getLast?_eq_head?_reverse]
        cases hrev : db.history.reverse with
        | nil =>
            rw [hrev] at hget
            simp at hget
        | cons a t =>
            rw [hrev] at hget
            simpa using hget
      have hpop := getBackup_pop db f hgl
      have hstep : restoreN 1 db = (getBackup db).2 := rfl
      rw [hstep, hpop]
      refine ⟨rfl, ?_⟩
      have hd : db.history.dropLast.length = db.history.length - 1 :=
        List.length_dropLast _
      simp only [hd]
      omega
  | succ n ih =>
      intro db f hlen hget
      have hne : db.history ≠ [] := by
        intro h0
        rw [h0] at hlen
        simp at hlen
      obtain ⟨e, hgl⟩ : ∃ e, db.history.getLast? = some e := by
        cases hgle : db.history.getLast? with
        | none => exact absurd (List.getLast?_eq_none_iff.mp hgle) hne
        | some e => exact ⟨e, rfl⟩
      have hpop := getBackup_pop db e hgl
      have hrev : db.history.reverse = e :: db.history.dropLast.reverse := by
        conv_lhs => rw [← history_decomp db e hgl]
        exact List.reverse_concat _ _
      have hget2 : db.history.dropLast.reverse[n]? = some f := by
        rw [hrev, List.getElem?_cons_succ] at hget
        exact hget
      have hd : db.history.dropLast.length = db.history.length - 1 :=
        List.length_dropLast _
      have hres := ih ⟨⟨e.data, e.integrity⟩, db.history.dropLast⟩ f
        (by simp only [hd]; omega) hget2
      have hstep : restoreN (n + 1 + 1) db =
          restoreN (n + 1) ⟨⟨e.data, e.integrity⟩, db.history.dropLast⟩ := by
        have h0 : restoreN (n + 1 + 1) db = restoreN (n + 1) (getBackup db).2 := rfl
        rw [h0, hpop]
      rw [hstep]
      refine ⟨hres.1, ?_⟩
      have hl2 := hres.2
      simp only [hd] at hl2
      omega

/-- Claim C5: on a database whose history ends in entry e, the restore
handler returns the record made of e's data and integrity, installs it
as current, drops exactly that last entry so the history shrinks by one,
and iterating the restore n+1 times (within the history's length)
installs the (n+1)-th most recent entry, walking the history in reverse
chronological order. -/
theorem getBackup_restore_props (db : Database) (e f : HistoryEntry) (n : Nat)
    (h : db.history.getLast? = some e)
    (hn : n + 1 ≤ db.history.length)
    (hf : db.history.reverse[n]? = some f) :
    (getBackup db).1 = .restored ⟨e.data, e.integrity⟩ ∧
    (getBackup db).2.current = ⟨e.data, e.integrity⟩ ∧
    (getBackup db).2.history = db.history.dropLast ∧
    (getBackup db).2.history.length + 1 = db.history.length ∧
    (restoreN (n + 1) db).current = ⟨f.data, f.integrity⟩ ∧
    (restoreN (n + 1) db).history.length + (n + 1) = db.history.length := by
  have hpop := getBackup_pop db e h
  obtain ⟨hc, hl⟩ := restoreN_back n db f hn hf
  refine ⟨by rw [hpop], by rw [hpop], by rw [hpop], ?_, hc, hl⟩
  rw [hpop]
  have hd : db.history.dropLast.length = db.history.length - 1 :=
    List.length_dropLast _
  simp only [hd]
  omega

/-- Claim C5 witness: two restores on a two-entry history walk back two
generations in reverse chronological order. -/
theorem getBackup_restore_props_witness :
    (getBackup ⟨⟨"Third", "h3"⟩,
        [⟨"First", "h1", "t1"⟩, ⟨"Second", "h2", "t2"⟩]⟩).1 =
      .restored ⟨"Second", "h2"⟩ ∧
    (getBackup ⟨⟨"Third", "h3"⟩,
        [⟨"First", "h1", "t1"⟩, ⟨"Second", "h2", "t2"⟩]⟩).2.current =
      ⟨"Second", "h2"⟩ ∧
    (getBackup ⟨⟨"Third", "h3"⟩,
        [⟨"First", "h1", "t1"⟩, ⟨"Second", "h2", "t2"⟩]⟩).2.history =
      ([⟨"First", "h1", "t1"⟩, ⟨"Second", "h2", "t2"⟩] :
        List HistoryEntry).dropLast ∧
    (getBackup ⟨⟨"Third", "h3"⟩,
        [⟨"First", "h1", "t1"⟩, ⟨"Second", "h2", "t2"⟩]⟩).2.history.length + 1 =
      (⟨⟨"Third", "h3"⟩,
        [⟨"First", "h1", "t1"⟩, ⟨"Second", "h2", "t2"⟩]⟩ :
          Database).history.length ∧
    (restoreN (1 + 1) ⟨⟨"Third", "h3"⟩,
        [⟨"First", "h1", "t1"⟩, ⟨"Second", "h2", "t2"⟩]⟩).current =
      ⟨"First", "h1"⟩ ∧
    (restoreN (1 + 1) ⟨⟨"Third", "h3"⟩,
        [⟨"First", "h1", "t1"⟩, ⟨"Second", "h2", "t2"⟩]⟩).history.length +
        (1 + 1) =
      (⟨⟨"Third", "h3"⟩,
        [⟨"First", "h1", "t1"⟩, ⟨"Second", "h2", "t2"⟩]⟩ :
          Database).history.length :=
  getBackup_restore_props
    ⟨⟨"Third", "h3"⟩, [⟨"First", "h1", "t1"⟩, ⟨"Second", "h2", "t2"⟩]⟩
    ⟨"Second", "h2", "t2"⟩ ⟨"First", "h1", "t1"⟩ 1
    (by decide) (by decide) (by decide)

/-- Helper: the initial database satisfies the hash-binding invariant. -/
theorem initialDatabase_intact (generateHash : String → String) :
    Intact generateHash (initialDatabase generateHash) := by
  constructor
  · rfl
  · intro e he
    simp [initialDatabase] at he

/-- Helper: one write request preserves the hash-binding invariant. -/
theorem postWrite_intact (generateHash : String → String)
    (now data hash : String) (db : Database)
    (h : Intact generateHash db) :
    Intact generateHash (postWrite generateHash now data hash db).2 := by
  obtain ⟨h1, h2⟩ := h
  by_cases hc : generateHash db.current.data = db.current.integrity
  · by_cases hm : generateHash data = hash
    · rw [postWrite_ok_eq generateHash now data hash db hc hm]
      constructor
      · rfl
      · intro e he
        rcases List.mem_append.mp he with he | he
        · exact h2 e he
        · have he2 : e = ⟨db.current.data, db.current.integrity, now⟩ := by
            simpa using he
          rw [he2]
          exact hc.symm
    · rw [postWrite_mismatch_eq generateHash now data hash db hc hm]
      exact ⟨h1, h2⟩
  · rw [postWrite_corrupt_eq generateHash now data hash db hc]
    exact ⟨h1, h2⟩

/-- Helper: one restore request preserves the hash-binding invariant. -/
theorem getBackup_intact (generateHash : String → String) (db : Database)
    (h : Intact generateHash db) :
    Intact generateHash (getBackup db).2 := by
  obtain ⟨h1, h2⟩ := h
  cases hgl : db.history.getLast? with
  | none =>
      have hnil : db.history = [] := List.getLast?_eq_none_iff.mp hgl
      have heq : getBackup db = (.noBackup, db) := by
        simp [getBackup, hnil]
      rw [heq]
      exact ⟨h1, h2⟩
  | some e =>
      rw [getBackup_pop db e hgl]
      have hmem : e ∈ db.history := by
        have hd := history_decomp db e hgl
        rw [← hd]
        simp
      constructor
      · exact h2 e hmem
      · intro x hx
        exact h2 x (List.dropLast_subset _ hx)

/-- Helper: every operation preserves the hash-binding invariant. -/
theorem applyOp_intact (generateHash : String → String) (db : Database)
    (op : Op) (h : Intact generateHash db) :
    Intact generateHash (applyOp generateHash db op) := by
  cases op with
  | read => exact h
  | write data hash now => exact postWrite_intact generateHash now data hash db h
  | restore => exact getBackup_intact generateHash db h

/-- Helper: any run of operations preserves the hash-binding invariant. -/
theorem runOps_intact (generateHash : String → String) (ops : List Op) :
    ∀ db : Database, Intact generateHash db →
      Intact generateHash (runOps generateHash ops db) := by
  induction ops with
  | nil => exact fun db h => h
  | cons op rest ih =>
      intro db h
      exact ih (applyOp generateHash db op) (applyOp_intact generateHash db op h)

/-- Claim C7: in every database reachable from the initial state by any
sequence of read, write and restore operations, the current record's
stored integrity equals the digest of its data. -/
theorem reachable_current_intact (generateHash : String → String)
    (ops : List Op) :
    (runOps generateHash ops (initialDatabase generateHash)).current.integrity =
      generateHash
        (runOps generateHash ops (initialDatabase generateHash)).current.data :=
  (runOps_intact generateHash ops (initialDatabase generateHash)
    (initialDatabase_intact generateHash)).1

end App
